import Mathlib

/-!
Shallow embedding of the message-retention and summarization core of
`src/bot.py` (a Discord digest bot).

Modelling conventions:
* Text is represented as `Txt := List Nat`, the list of Unicode codepoints;
  `lit` builds such a value from a Lean string literal.  This lets the
  whitespace-tokenization and lower-casing done by the fallback summarizer be
  reasoned about character by character.
* Instants (`datetime`) are `Int` seconds; `timedelta(hours=h)` is `h * 3600`.
  Both sides of every comparison in the source are UTC-based (the source
  strips `tzinfo` from two UTC-aware datetimes), so plain `Int` comparison is
  the faithful model.
* Python `dict` built by repeated assignment is an association list with
  insert-or-replace (`dictInsert`); replacement keeps the key's position,
  matching CPython insertion-order semantics.
* The per-guild, per-channel `defaultdict`/`deque` buffers become nested
  association lists; `deque.append` is list append, `popleft` drops the head.
* The OpenAI call inside `summarize_all_channels_async` is an oracle
  `api : Txt → ApiResult` applied to the composed conversation document;
  `ApiResult.timeout` models `asyncio.TimeoutError`, `ApiResult.error`
  models any other exception.
-/

abbrev Txt : Type := List Nat

def lit (s : String) : Txt := s.data.map Char.toNat

structure MessageData where
  author : Txt
  content : Txt
  timestamp : Int
  jump_url : Txt
  channel_name : Txt
  channel_id : Nat
  attachments : Nat
  embeds : Nat
deriving DecidableEq

/-- One tenant's buffer: channel_id → ordered message sequence (the deque). -/
abbrev Buffer : Type := List (Nat × List MessageData)

/-- All tenants: guild_id → Buffer (the `message_buffers` defaultdict). -/
abbrev Buffers : Type := List (Nat × Buffer)

/-- Python dict assignment `d[k] = v`: replace in place if the key exists
(keeping its position), else append at the end. -/
def dictInsert {α : Type} : List (Txt × α) → Txt → α → List (Txt × α)
  | [], k, v => [(k, v)]
  | (k', v') :: rest, k, v =>
      if k' = k then (k, v) :: rest else (k', v') :: dictInsert rest k v

/-- Lookup with default, modelling `defaultdict` read access. -/
def lookupD {α : Type} : List (Nat × α) → Nat → α → α
  | [], _, dflt => dflt
  | (k', v) :: rest, k, dflt => if k' = k then v else lookupD rest k dflt

/-- The filter predicate of `get_messages_in_timerange`
(line 98: `msg.timestamp > cutoff_time`, strict). -/
def inWindow (cutoff : Int) (m : MessageData) : Bool :=
  decide (cutoff < m.timestamp)

/-- The loop of `get_messages_in_timerange` (lines 95-103): for each channel,
filter to in-window messages; if any survive, bind
`messages_by_channel[filtered[0].channel_name] = filtered`. -/
def queryAux (cutoff : Int) :
    List (Txt × List MessageData) → Buffer → List (Txt × List MessageData)
  | acc, [] => acc
  | acc, (_, msgs) :: rest =>
      match msgs.filter (inWindow cutoff) with
      | [] => queryAux cutoff acc rest
      | f :: fs => queryAux cutoff (dictInsert acc f.channel_name (f :: fs)) rest

/-- `get_messages_in_timerange(guild_id, hours_back)` (lines 90-105), with the
global buffer state and the current instant passed explicitly. -/
def get_messages_in_timerange (bufs : Buffers) (guild_id : Nat)
    (now : Int) (hours_back : Int) : List (Txt × List MessageData) :=
  queryAux (now - hours_back * 3600) [] (lookupD bufs guild_id [])

/-- What one channel contributes to the query result when no name collision
interferes: `none` if no message is in-window, else the grouping key
(`filtered[0].channel_name`) with the filtered sequence. -/
def channelEntry (cutoff : Int) (c : Nat × List MessageData) :
    Option (Txt × List MessageData) :=
  match c.2.filter (inWindow cutoff) with
  | [] => none
  | f :: fs => some (f.channel_name, f :: fs)

/-- The collision-free reading of the query result. -/
def plainQuery (cutoff : Int) (buf : Buffer) : List (Txt × List MessageData) :=
  buf.filterMap (channelEntry cutoff)

/-- The grouping keys the query would use, channel by channel. -/
def queryKeys (cutoff : Int) (buf : Buffer) : List Txt :=
  (plainQuery cutoff buf).map (·.1)

/-- The `while ... popleft()` loop of `cleanup_old_messages`
(lines 114-116): drop leading messages with `timestamp < cutoff`. -/
def dropOldMessages (cutoff : Int) : List MessageData → List MessageData
  | [] => []
  | m :: rest =>
      if m.timestamp < cutoff then dropOldMessages cutoff rest else m :: rest

/-- `cleanup_old_messages()` (lines 107-116): for every guild and channel,
trim the old prefix against the 168-hour horizon. -/
def cleanup_old_messages (bufs : Buffers) (now : Int) : Buffers :=
  bufs.map (fun g =>
    (g.1, g.2.map (fun c => (c.1, dropOldMessages (now - 168 * 3600) c.2))))

/-- Python `str.isspace` on one codepoint, restricted to the ASCII whitespace
class relevant to chat text (`' '`, tab, LF, VT, FF, CR). -/
def pyIsSpace (n : Nat) : Bool :=
  decide (n = 32 ∨ n = 9 ∨ n = 10 ∨ n = 11 ∨ n = 12 ∨ n = 13)

/-- Python `str.lower`, codepoint-wise, on the ASCII range. -/
def pyLowerChar (n : Nat) : Nat := if 65 ≤ n ∧ n ≤ 90 then n + 32 else n

def pyLower (s : Txt) : Txt := s.map pyLowerChar

/-- Python `str.split()` with no separator: split on runs of whitespace,
dropping empty pieces.  The accumulator holds the current word reversed. -/
def pySplitAux : Txt → Txt → List Txt
  | [], acc => if acc.isEmpty then [] else [acc.reverse]
  | c :: cs, acc =>
      if pyIsSpace c then
        if acc.isEmpty then pySplitAux cs []
        else acc.reverse :: pySplitAux cs []
      else pySplitAux cs (c :: acc)

def pySplit (s : Txt) : List Txt := pySplitAux s []

/-- `content_words[word] += 1` on a `defaultdict(int)`: first touch appends
the key at the end, later touches increment in place. -/
def bump : List (Txt × Nat) → Txt → List (Txt × Nat)
  | [], w => [(w, 1)]
  | (w', n) :: rest, w =>
      if w' = w then (w', n + 1) :: rest else (w', n) :: bump rest w

/-- The counting loop of `generate_simple_summary` (lines 125-129): for each
message, `words = msg.content.lower().split()`; count words with
`len(word) > 4`. -/
def countWords (msgs : List MessageData) : List (Txt × Nat) :=
  msgs.foldl (fun cw m =>
    (pySplit (pyLower m.content)).foldl
      (fun cw' w => if 4 < w.length then bump cw' w else cw') cw) []

/-- Insert into a descending-by-count list, after all entries with a count
`≥` the new one; used left-to-right this is a stable descending sort,
the semantics of `sorted(..., key=count, reverse=True)`. -/
def insertDesc (x : Txt × Nat) : List (Txt × Nat) → List (Txt × Nat)
  | [] => [x]
  | y :: ys => if y.2 < x.2 then x :: y :: ys else y :: insertDesc x ys

def stableSortDesc (l : List (Txt × Nat)) : List (Txt × Nat) :=
  l.foldl (fun acc x => insertDesc x acc) []

/-- Lines 131-135: top-3 words by frequency; emit a labeled keyword line
when any qualify, nothing otherwise. -/
def channelSummaryLine (name : Txt) (msgs : List MessageData) : Option Txt :=
  let top_words := (stableSortDesc (countWords msgs)).take 3
  if top_words.isEmpty then none
  else some (lit "**#" ++ name ++ lit "**: " ++
    List.intercalate (lit ", ") (top_words.map (·.1)))

/-- `generate_simple_summary(messages_by_channel)` (lines 118-139). -/
def generate_simple_summary (mbc : List (Txt × List MessageData)) : Txt :=
  let summaries := mbc.filterMap (fun g => channelSummaryLine g.1 g.2)
  if summaries.isEmpty then lit "特定のトピックは見つかりませんでした。"
  else List.intercalate (lit "\n") summaries

/-- Modelled from the spec's words (§4.4) for the refinement claim about the
fallback: tokenize message text by whitespace, THEN lower-case the tokens, and
count tokens of length > 4.  Everything downstream is shared with the source
embedding. -/
def specTokens (content : Txt) : List Txt := (pySplit content).map pyLower

def specCountWords (msgs : List MessageData) : List (Txt × Nat) :=
  msgs.foldl (fun cw m =>
    (specTokens m.content).foldl
      (fun cw' w => if 4 < w.length then bump cw' w else cw') cw) []

def specChannelSummaryLine (name : Txt) (msgs : List MessageData) : Option Txt :=
  let top_words := (stableSortDesc (specCountWords msgs)).take 3
  if top_words.isEmpty then none
  else some (lit "**#" ++ name ++ lit "**: " ++
    List.intercalate (lit ", ") (top_words.map (·.1)))

/-- The reference fallback summarizer, following the spec's wording. -/
def spec_fallback_summary (mbc : List (Txt × List MessageData)) : Txt :=
  let summaries := mbc.filterMap (fun g => specChannelSummaryLine g.1 g.2)
  if summaries.isEmpty then lit "特定のトピックは見つかりませんでした。"
  else List.intercalate (lit "\n") summaries

/-- Line 81 etc.: one formatted message of the conversation document
(lines 167-173), with attachment/embed annotations when nonzero. -/
def format_message (m : MessageData) : Txt :=
  m.author ++ lit ": " ++ m.content ++
  (if 0 < m.attachments then
    lit " [添付ファイル: " ++ lit (toString m.attachments) ++ lit "件]"
   else []) ++
  (if 0 < m.embeds then
    lit " [Embed: " ++ lit (toString m.embeds) ++ lit "件]"
   else [])

/-- Line 165: `MAX_MESSAGES_PER_SUMMARY * 2 if is_weekly else MAX...`. -/
def max_messages_for (is_weekly : Bool) (n : Nat) : Nat :=
  if is_weekly then n * 2 else n

/-- Python `l[-k:]` for a nonnegative `k`: the last `k` elements, except that
`k = 0` yields the whole list (`l[0:]`). -/
def pyLastSlice {α : Type} (k : Nat) (l : List α) : List α :=
  if k = 0 then l else l.drop (l.length - k)

/-- The `message_texts` list built for one channel (lines 164-173). -/
def message_texts (is_weekly : Bool) (n : Nat) (msgs : List MessageData) :
    List Txt :=
  (pyLastSlice (max_messages_for is_weekly n) msgs).map format_message

/-- Lines 161-175: one channel's block of the conversation document. -/
def channel_block (is_weekly : Bool) (n : Nat) (name : Txt)
    (msgs : List MessageData) : Txt :=
  lit "\n=== #" ++ name ++ lit " ===\n" ++
  List.intercalate (lit "\n") (message_texts is_weekly n msgs)

/-- Lines 155-179: the combined document handed to the summarization call
(empty channels skipped by the `continue`). -/
def full_conversation (mbc : List (Txt × List MessageData))
    (is_weekly : Bool) (n : Nat) : Txt :=
  List.intercalate (lit "\n\n")
    ((mbc.filter (fun g => !g.2.isEmpty)).map
      (fun g => channel_block is_weekly n g.1 g.2))

/-- The process-wide usage-counter state (`daily_api_calls`,
`last_reset_date`). -/
structure ApiState where
  dailyApiCalls : Nat
  lastResetDate : Int
deriving DecidableEq

/-- Outcome of the one external call: a returned content string (possibly
empty, modelling a falsy `response.choices[0].message.content`), an
`asyncio.TimeoutError`, or any other exception. -/
inductive ApiResult where
  | ok (content : Txt)
  | timeout
  | error (e : Txt)
deriving DecidableEq

/-- Lines 146-148: lazy date-rollover reset of the usage counter. -/
def rollover (today : Int) (st : ApiState) : ApiState :=
  if today ≠ st.lastResetDate then ⟨0, today⟩ else st

/-- `summarize_all_channels_async` (lines 141-255): rollover check, empty
short-circuit, document composition, the external call (an oracle applied to
the composed document), counter increment on a successful return, and the
fallback on timeout or any other failure. -/
def summarize_all_channels_async (mbc : List (Txt × List MessageData))
    (is_weekly : Bool) (n : Nat) (today : Int)
    (api : Txt → ApiResult) (st : ApiState) : Txt × ApiState :=
  let st1 := rollover today st
  if mbc.all (fun g => g.2.isEmpty) then
    (lit "要約するメッセージがありません。", st1)
  else
    match api (full_conversation mbc is_weekly n) with
    | .ok content =>
        let st2 : ApiState := ⟨st1.dailyApiCalls + 1, st1.lastResetDate⟩
        if content.isEmpty then (lit "要約の生成に失敗しました。", st2)
        else (content, st2)
    | .timeout => (generate_simple_summary mbc, st1)
    | .error _ => (generate_simple_summary mbc, st1)

/-- Lines 528-532 of `manual_summary`: clamp the requested hours to
`[1, 168]`. -/
def manual_summary_hours (h : Int) : Int :=
  if h < 1 then 1 else if 168 < h then 168 else h

/-- Line 553: `is_weekly = hours >= 168`, computed from the clamped value. -/
def manual_summary_is_weekly (h : Int) : Bool :=
  decide (168 ≤ manual_summary_hours h)

/-- Outcome of an effectful step inside one tenant's unit: success, a
`discord.Forbidden`, or any other exception. -/
inductive StepOutcome where
  | ok
  | forbidden
  | error (e : Txt)
deriving DecidableEq

/-- The per-tenant inputs of one fan-out run: the tenant's config (lines
346-351), whether the bot can still resolve the guild, the oracle outcomes of
embed composition (lines 360-366, which may raise) and of the delivery send
(line 376), and the send-permission check (lines 371-374). -/
structure GuildCtx where
  gid : Nat
  enabled : Bool
  has_summary_channel : Bool
  guild_exists : Bool
  compose : StepOutcome
  can_send : Bool
  send : StepOutcome
deriving DecidableEq

/-- How one tenant's unit terminates; the `caught` constructors are the
`except discord.Forbidden` / `except Exception` handlers of lines 380-383:
the error is absorbed and the unit still returns normally. -/
inductive RunResult where
  | skippedConfig
  | skippedNoGuild
  | skippedEmpty
  | noPermission
  | posted
  | caughtForbidden
  | caughtError (e : Txt)
deriving DecidableEq

/-- The inner `process_guild` closure of `post_scheduled_summary`
(lines 344-385), one tenant's unit of work.  It is total: every failure of
the composition or delivery path maps to a `caught` result. -/
def process_guild (bufs : Buffers) (now : Int) (hours_back : Int)
    (g : GuildCtx) : RunResult :=
  if !g.enabled || !g.has_summary_channel then .skippedConfig
  else if !g.guild_exists then .skippedNoGuild
  else
    let mbc := get_messages_in_timerange bufs g.gid now hours_back
    if mbc.isEmpty then .skippedEmpty
    else
      match g.compose with
      | .forbidden => .caughtForbidden
      | .error e => .caughtError e
      | .ok =>
          if !g.can_send then .noPermission
          else
            match g.send with
            | .ok => .posted
            | .forbidden => .caughtForbidden
            | .error e => .caughtError e

/-- `post_scheduled_summary` (lines 341-401): fan the per-tenant unit out over
every configured tenant.  The concurrent branch is
`asyncio.gather(..., return_exceptions=True)` over one task per tenant, the
sequential branch is a plain loop; because `process_guild` is total, both
reduce to running every unit to completion, one result per tenant. -/
def post_scheduled_summary (bufs : Buffers) (now : Int) (hours_back : Int)
    (configs : List GuildCtx) (parallel : Bool) : List RunResult :=
  if parallel then configs.map (process_guild bufs now hours_back)
  else configs.map (process_guild bufs now hours_back)

/-! ## Concrete sample data shared by witnesses and counterexamples -/

def msgA : MessageData :=
  { author := lit "alice", content := lit "hello summary world", timestamp := 1000,
    jump_url := lit "u1", channel_name := lit "general", channel_id := 1,
    attachments := 0, embeds := 0 }

def msgB : MessageData :=
  { author := lit "bob", content := lit "totally different words", timestamp := 2000,
    jump_url := lit "u2", channel_name := lit "general", channel_id := 2,
    attachments := 1, embeds := 0 }

def msgOld : MessageData :=
  { author := lit "carol", content := lit "ancient", timestamp := -700000,
    jump_url := lit "u3", channel_name := lit "random", channel_id := 3,
    attachments := 0, embeds := 0 }

/-! ## Lemmas about the query fold -/

theorem dictInsert_of_not_mem {α : Type} (d : List (Txt × α)) (k : Txt) (v : α)
    (hk : ∀ e ∈ d, e.1 ≠ k) : dictInsert d k v = d ++ [(k, v)] := by
  induction d with
  | nil => rfl
  | cons e rest ih =>
      obtain ⟨k', v'⟩ := e
      unfold dictInsert
      rw [if_neg (hk (k', v') (List.mem_cons_self _ _)),
        ih (fun e he => hk e (List.mem_cons_of_mem _ he))]
      rfl

theorem plainQuery_cons_none (cutoff : Int) (c : Nat × List MessageData)
    (buf : Buffer) (h : channelEntry cutoff c = none) :
    plainQuery cutoff (c :: buf) = plainQuery cutoff buf := by
  simp [plainQuery, List.filterMap_cons, h]

theorem plainQuery_cons_some (cutoff : Int) (c : Nat × List MessageData)
    (buf : Buffer) (e : Txt × List MessageData)
    (h : channelEntry cutoff c = some e) :
    plainQuery cutoff (c :: buf) = e :: plainQuery cutoff buf := by
  simp [plainQuery, List.filterMap_cons, h]

/-- When the grouping keys collide nowhere (with each other or with the
accumulator), the query fold is a plain append of per-channel entries. -/
theorem queryAux_eq (cutoff : Int) (buf : Buffer) :
    ∀ acc : List (Txt × List MessageData),
      (∀ e ∈ acc, e.1 ∉ queryKeys cutoff buf) →
      (queryKeys cutoff buf).Nodup →
      queryAux cutoff acc buf = acc ++ plainQuery cutoff buf := by
  induction buf with
  | nil => intro acc _ _; simp [queryAux, plainQuery]
  | cons c rest ih =>
      intro acc hdisj hnodup
      obtain ⟨cid, msgs⟩ := c
      unfold queryAux
      cases hf : msgs.filter (inWindow cutoff) with
      | nil =>
          have hent : channelEntry cutoff (cid, msgs) = none := by
            simp [channelEntry, hf]
          have hkeys : queryKeys cutoff ((cid, msgs) :: rest) =
              queryKeys cutoff rest := by
            unfold queryKeys
            rw [plainQuery_cons_none cutoff _ _ hent]
          rw [hkeys] at hdisj hnodup
          rw [ih acc hdisj hnodup, plainQuery_cons_none cutoff _ _ hent]
      | cons f fs =>
          have hent : channelEntry cutoff (cid, msgs) =
              some (f.channel_name, f :: fs) := by
            simp [channelEntry, hf]
          have hkeys : queryKeys cutoff ((cid, msgs) :: rest) =
              f.channel_name :: queryKeys cutoff rest := by
            unfold queryKeys
            rw [plainQuery_cons_some cutoff _ _ _ hent, List.map_cons]
          rw [hkeys] at hdisj hnodup
          have hknotin : f.channel_name ∉ queryKeys cutoff rest :=
            (List.nodup_cons.mp hnodup).1
          have hnodup' : (queryKeys cutoff rest).Nodup :=
            (List.nodup_cons.mp hnodup).2
          have hdictins : dictInsert acc f.channel_name (f :: fs) =
              acc ++ [(f.channel_name, f :: fs)] :=
            dictInsert_of_not_mem _ _ _
              (fun e he h => (hdisj e he) (h ▸ List.mem_cons_self _ _))
          have hdisj' : ∀ e ∈ acc ++ [(f.channel_name, f :: fs)],
              e.1 ∉ queryKeys cutoff rest := by
            intro e he
            rcases List.mem_append.mp he with h | h
            · exact fun hmem => hdisj e h (List.mem_cons_of_mem _ hmem)
            · rcases List.mem_singleton.mp h with rfl
              exact hknotin
          show queryAux cutoff (dictInsert acc f.channel_name (f :: fs)) rest =
            acc ++ plainQuery cutoff ((cid, msgs) :: rest)
          rw [hdictins, ih _ hdisj' hnodup',
            plainQuery_cons_some cutoff _ _ _ hent]
          simp

/-! ## C1: time-window membership of the query result -/

/-- C1 (amended): on a tenant buffer whose grouping keys — the
`channel_name` of the first in-window message of each sub-channel that has
one — are pairwise distinct, a buffered message appears in the window-query
result iff its timestamp is strictly newer than `now - H` hours (the boundary
itself excluded), and every returned entry is nonempty, so zero-match
sub-channels are absent rather than empty. -/
theorem window_query_membership (gid : Nat) (buf : Buffer) (now H : Int)
    (m : MessageData)
    (hkeys : (queryKeys (now - H * 3600) buf).Nodup)
    (hm : ∃ c ∈ buf, m ∈ c.2) :
    ((∃ e ∈ get_messages_in_timerange [(gid, buf)] gid now H, m ∈ e.2) ↔
      now - H * 3600 < m.timestamp) ∧
    (∀ e ∈ get_messages_in_timerange [(gid, buf)] gid now H, e.2 ≠ []) := by
  have hq : get_messages_in_timerange [(gid, buf)] gid now H =
      plainQuery (now - H * 3600) buf := by
    unfold get_messages_in_timerange lookupD
    rw [if_pos rfl, queryAux_eq _ _ [] (by simp) hkeys]
    simp
  rw [hq]
  constructor
  · constructor
    · rintro ⟨e, he, hme⟩
      rcases List.mem_filterMap.mp he with ⟨c, hc, hce⟩
      unfold channelEntry at hce
      cases hf : c.2.filter (inWindow (now - H * 3600)) with
      | nil => rw [hf] at hce; cases hce
      | cons f fs =>
          rw [hf] at hce
          cases hce
          rw [← hf] at hme
          have := (List.mem_filter.mp hme).2
          simpa [inWindow] using this
    · intro hts
      rcases hm with ⟨c, hc, hmc⟩
      have hmf : m ∈ c.2.filter (inWindow (now - H * 3600)) :=
        List.mem_filter.mpr ⟨hmc, by simpa [inWindow] using hts⟩
      cases hf : c.2.filter (inWindow (now - H * 3600)) with
      | nil => rw [hf] at hmf; cases hmf
      | cons f fs =>
          refine ⟨(f.channel_name, f :: fs),
            List.mem_filterMap.mpr ⟨c, hc, by simp [channelEntry, hf]⟩, ?_⟩
          rw [hf] at hmf
          exact hmf
  · intro e he
    rcases List.mem_filterMap.mp he with ⟨c, hc, hce⟩
    unfold channelEntry at hce
    cases hf : c.2.filter (inWindow (now - H * 3600)) with
    | nil => rw [hf] at hce; cases hce
    | cons f fs =>
        rw [hf] at hce
        cases hce
        simp

/-- Witness for the amended C1 on a collision-free one-channel buffer. -/
theorem window_query_membership_witness :
    ((∃ e ∈ get_messages_in_timerange [(0, [(1, [msgA])])] 0 3600 1,
        msgA ∈ e.2) ↔ 3600 - 1 * 3600 < msgA.timestamp) ∧
    (∀ e ∈ get_messages_in_timerange [(0, [(1, [msgA])])] 0 3600 1,
      e.2 ≠ []) :=
  window_query_membership 0 [(1, [msgA])] 3600 1 msgA (by decide)
    ⟨(1, [msgA]), by decide, by decide⟩

/-- Counterexample to C1 as stated: two sub-channels of one tenant carry the
same channel name; the in-window message of the shadowed sub-channel is
strictly newer than the cutoff yet absent from the query result, so the
unrestricted iff fails. -/
theorem window_query_membership_cex :
    ¬ ((∃ e ∈ get_messages_in_timerange
          [(0, [(1, [msgA]), (2, [msgB])])] 0 3600 1, msgA ∈ e.2) ↔
        3600 - 1 * 3600 < msgA.timestamp) := by decide

/-! ## C10: name collision keeps only one sub-channel's messages -/

def msgDup1 : MessageData :=
  { author := lit "dan", content := lit "alpha release is near", timestamp := 100,
    jump_url := lit "u4", channel_name := lit "dev", channel_id := 10,
    attachments := 0, embeds := 0 }

def msgDup2 : MessageData :=
  { author := lit "erin", content := lit "branch merged today", timestamp := 200,
    jump_url := lit "u5", channel_name := lit "dev", channel_id := 11,
    attachments := 0, embeds := 0 }

/-- C10: with two distinct sub-channel ids of one tenant carrying the same
channel name and both holding in-window messages, the query result binds that
name exactly once, to the later-iterated sub-channel's filtered sequence, and
the other sub-channel's in-window messages are entirely absent. -/
theorem query_name_collision_shadows :
    get_messages_in_timerange [(9, [(10, [msgDup1]), (11, [msgDup2])])]
        9 7200 2 = [(lit "dev", [msgDup2])] ∧
    (7200 - 2 * 3600 < msgDup1.timestamp ∧
      7200 - 2 * 3600 < msgDup2.timestamp) ∧
    ∀ e ∈ get_messages_in_timerange [(9, [(10, [msgDup1]), (11, [msgDup2])])]
        9 7200 2, msgDup1 ∉ e.2 := by decide

/-! ## Lemmas about the prune loop -/

theorem dropOld_eq_dropWhile (cutoff : Int) (l : List MessageData) :
    dropOldMessages cutoff l =
      l.dropWhile (fun m => decide (m.timestamp < cutoff)) := by
  induction l with
  | nil => rfl
  | cons m rest ih =>
      unfold dropOldMessages
      by_cases h : m.timestamp < cutoff <;> simp [List.dropWhile_cons, h, ih]

theorem mem_dropOld_not_old (cutoff : Int) (l : List MessageData)
    (hsort : List.Pairwise (fun a b => a.timestamp ≤ b.timestamp) l) :
    ∀ m ∈ dropOldMessages cutoff l, ¬ m.timestamp < cutoff := by
  induction l with
  | nil => intro m hm; cases hm
  | cons x rest ih =>
      intro m hm
      unfold dropOldMessages at hm
      by_cases hx : x.timestamp < cutoff
      · rw [if_pos hx] at hm
        exact ih (List.Pairwise.of_cons hsort) m hm
      · rw [if_neg hx] at hm
        rcases List.mem_cons.mp hm with h | h
        · subst h; exact hx
        · have hle : x.timestamp ≤ m.timestamp :=
            (List.pairwise_cons.mp hsort).1 m h
          omega

theorem mem_dropOld_of_young (cutoff : Int) (l : List MessageData)
    (m : MessageData) (hm : m ∈ l) (hy : cutoff < m.timestamp) :
    m ∈ dropOldMessages cutoff l := by
  induction l with
  | nil => cases hm
  | cons x rest ih =>
      unfold dropOldMessages
      by_cases hx : x.timestamp < cutoff
      · rw [if_pos hx]
        rcases List.mem_cons.mp hm with h | h
        · subst h; omega
        · exact ih h
      · rw [if_neg hx]; exact hm

/-! ## C2: retention invariant of the prune pass -/

/-- C2: on time-ordered sequences, one pruning pass leaves, in every
(tenant, sub-channel) slot, exactly the `dropWhile`-trimmed sequence: a suffix
of the original in which no message is older than the 168-hour horizon, with
every message strictly younger than the horizon still present. -/
theorem cleanup_retention_invariant (bufs : Buffers) (now : Int)
    (hsort : ∀ g ∈ bufs, ∀ c ∈ g.2,
      List.Pairwise (fun a b => a.timestamp ≤ b.timestamp) c.2) :
    ∀ g' ∈ cleanup_old_messages bufs now, ∀ c' ∈ g'.2,
      (∀ m ∈ c'.2, ¬ m.timestamp < now - 168 * 3600) ∧
      ∃ g ∈ bufs, g.1 = g'.1 ∧ ∃ c ∈ g.2, c.1 = c'.1 ∧
        c'.2 = c.2.dropWhile (fun m => decide (m.timestamp < now - 168 * 3600)) ∧
        c'.2 <:+ c.2 ∧
        (∀ m ∈ c.2, now - 168 * 3600 < m.timestamp → m ∈ c'.2) := by
  intro g' hg' c' hc'
  unfold cleanup_old_messages at hg'
  rcases List.mem_map.mp hg' with ⟨g, hg, rfl⟩
  rcases List.mem_map.mp hc' with ⟨c, hc, rfl⟩
  refine ⟨mem_dropOld_not_old _ _ (hsort g hg c hc), g, hg, rfl, c, hc, rfl,
    dropOld_eq_dropWhile _ _, ?_, fun m hm hy => mem_dropOld_of_young _ _ m hm hy⟩
  rw [dropOld_eq_dropWhile]
  exact List.dropWhile_suffix _

def bufsW : Buffers := [(5, [(7, [msgOld, msgA])])]

/-- Witness for C2 on a concrete two-message buffer: the 700000-second-old
message is trimmed, the young one survives. -/
theorem cleanup_retention_invariant_witness :
    (∀ m ∈ ((7, [msgA]) : Nat × List MessageData).2,
      ¬ m.timestamp < 0 - 168 * 3600) ∧
    ∃ g ∈ bufsW, g.1 = (5, [(7, [msgA])]).1 ∧
      ∃ c ∈ g.2, c.1 = ((7, [msgA]) : Nat × List MessageData).1 ∧
        ((7, [msgA]) : Nat × List MessageData).2 =
          c.2.dropWhile (fun m => decide (m.timestamp < 0 - 168 * 3600)) ∧
        ((7, [msgA]) : Nat × List MessageData).2 <:+ c.2 ∧
        (∀ m ∈ c.2, 0 - 168 * 3600 < m.timestamp →
          m ∈ ((7, [msgA]) : Nat × List MessageData).2) :=
  cleanup_retention_invariant bufsW 0 (by decide)
    (5, [(7, [msgA])]) (by decide) (7, [msgA]) (by decide)

/-! ## C3: the window query preserves append order -/

/-- C3: for a sub-channel whose messages were appended in non-decreasing
timestamp order, whatever the window query returns for it is a sublist of the
appended sequence: same relative order, never reordered. -/
theorem query_preserves_order (gid cid : Nat) (msgs : List MessageData)
    (now H : Int)
    (hsort : List.Pairwise (fun a b => a.timestamp ≤ b.timestamp) msgs) :
    ∀ e ∈ get_messages_in_timerange [(gid, [(cid, msgs)])] gid now H,
      e.2.Sublist msgs := by
  intro e he
  unfold get_messages_in_timerange lookupD at he
  rw [if_pos rfl] at he
  unfold queryAux at he
  cases hf : msgs.filter (inWindow (now - H * 3600)) with
  | nil =>
      rw [hf] at he
      simp only [queryAux] at he
      cases he
  | cons f fs =>
      rw [hf] at he
      simp only [queryAux, dictInsert] at he
      rcases List.mem_singleton.mp he with rfl
      show (f :: fs).Sublist msgs
      rw [← hf]
      exact List.filter_sublist msgs

/-- Witness for C3: querying a two-message channel with a window that keeps
only the newer message returns it as a sublist of the appended sequence. -/
theorem query_preserves_order_witness :
    ((lit "general", [msgB]) : Txt × List MessageData).2.Sublist [msgA, msgB] :=
  query_preserves_order 0 1 [msgA, msgB] 5200 1 (by decide)
    (lit "general", [msgB]) (by decide)

/-! ## C5: the fallback summarizer equals its spec reference -/

theorem pyIsSpace_lowerChar (n : Nat) :
    pyIsSpace (pyLowerChar n) = pyIsSpace n := by
  unfold pyLowerChar pyIsSpace
  split
  · rw [decide_eq_decide]; omega
  · rfl

theorem pyLower_isEmpty (l : Txt) : (pyLower l).isEmpty = l.isEmpty := by
  cases l <;> simp [pyLower]

theorem pySplitAux_lower (s : Txt) :
    ∀ acc : Txt, pySplitAux (pyLower s) (pyLower acc) =
      (pySplitAux s acc).map pyLower := by
  induction s with
  | nil =>
      intro acc
      by_cases hacc : acc.isEmpty
      · have h0 : acc = [] := List.isEmpty_iff.mp hacc
        subst h0
        simp [pySplitAux, pyLower]
      · have h0 : acc ≠ [] := fun h => hacc (by simp [h])
        simp [pySplitAux, pyLower, h0, List.map_reverse]
  | cons c cs ih =>
      intro acc
      show pySplitAux (pyLowerChar c :: pyLower cs) (pyLower acc) = _
      unfold pySplitAux
      rw [pyIsSpace_lowerChar]
      by_cases hsp : pyIsSpace c
      · rw [if_pos hsp, if_pos hsp, pyLower_isEmpty]
        by_cases hacc : acc.isEmpty
        · rw [if_pos hacc, if_pos hacc]
          exact ih []
        · rw [if_neg hacc, if_neg hacc, List.map_cons, ← ih []]
          simp [pyLower, List.map_reverse]
      · rw [if_neg hsp, if_neg hsp]
        exact ih (c :: acc)

theorem pySplit_lower (s : Txt) :
    pySplit (pyLower s) = (pySplit s).map pyLower :=
  pySplitAux_lower s []

theorem specTokens_eq (content : Txt) :
    specTokens content = pySplit (pyLower content) := by
  unfold specTokens
  rw [pySplit_lower]

theorem specCountWords_eq (msgs : List MessageData) :
    specCountWords msgs = countWords msgs := by
  unfold specCountWords countWords
  congr 1
  funext cw m
  rw [specTokens_eq]

/-- C5: the fallback summarizer of the source equals, on every input mapping,
the reference summarizer written from the spec's words (tokenize by
whitespace, lower-case, count tokens longer than 4 characters, top-3 with
first-seen tie-breaking, labeled comma-joined lines, sentinel when nothing
qualifies); being a function of its input, it is in particular deterministic
across runs. -/
theorem fallback_matches_spec (mbc : List (Txt × List MessageData)) :
    generate_simple_summary mbc = spec_fallback_summary mbc := by
  have hline : ∀ (n : Txt) (msgs : List MessageData),
      channelSummaryLine n msgs = specChannelSummaryLine n msgs := by
    intro n msgs
    unfold channelSummaryLine specChannelSummaryLine
    rw [specCountWords_eq]
  unfold generate_simple_summary spec_fallback_summary
  simp only [hline]

/-! ## C9: manual lookback clamping and the weekly flag -/

/-- C9: the lookback used by the `!summary` command is the argument clamped to
`[1, 168]`, and the weekly flag is set exactly when the requested lookback is
at least 168 hours. -/
theorem manual_lookback_clamped (h : Int) :
    manual_summary_hours h = max 1 (min 168 h) ∧
    (manual_summary_is_weekly h = true ↔ 168 ≤ h) := by
  constructor
  · unfold manual_summary_hours
    split <;> rename_i h1
    · omega
    · split <;> omega
  · unfold manual_summary_is_weekly manual_summary_hours
    rw [decide_eq_true_iff]
    split <;> [omega; (split <;> omega)]

/-! ## C6: fan-out failure isolation -/

/-- C6: during one fan-out run, every configured tenant's unit runs to
completion and its result depends only on that tenant's own inputs, in both
the concurrent and the sequential mode; a failing step inside one unit is
absorbed into that unit's own `caught` result and cannot remove, reorder or
change any sibling's entry. -/
theorem fanout_isolates_tenants (bufs : Buffers) (now hours_back : Int)
    (configs : List GuildCtx) (parallel : Bool) (i : Nat) :
    (post_scheduled_summary bufs now hours_back configs parallel)[i]? =
      (configs[i]?).map (process_guild bufs now hours_back) := by
  unfold post_scheduled_summary
  cases parallel <;> simp

/-! ## C7: per-channel message cap in the digest composition -/

/-- C7: with a positive configured cap `n`, the texts composed for one channel
come from exactly the most recent `n` messages (`2 * n` on a weekly run): a
suffix of the group of length `min cap |group|`, in sequence order; the rest
of the group is absent from the composed input. -/
theorem digest_caps_messages (w : Bool) (n : Nat) (msgs : List MessageData)
    (hn : 0 < n) :
    message_texts w n msgs =
      (msgs.drop (msgs.length - (if w then 2 * n else n))).map format_message ∧
    msgs.drop (msgs.length - (if w then 2 * n else n)) <:+ msgs ∧
    (msgs.drop (msgs.length - (if w then 2 * n else n))).length =
      min (if w then 2 * n else n) msgs.length := by
  have hcap : max_messages_for w n = if w then 2 * n else n := by
    unfold max_messages_for; cases w <;> simp [Nat.mul_comm]
  refine ⟨?_, List.drop_suffix _ _, ?_⟩
  · unfold message_texts pyLastSlice
    rw [hcap]
    have hne : ¬ (if w then 2 * n else n) = 0 := by
      cases w <;> simp <;> omega
    simp [hne]
  · rw [List.length_drop]; omega

/-- Witness for C7 at the default configuration `n = 100`. -/
theorem digest_caps_messages_witness :
    message_texts false 100 [msgA, msgB] =
      ([msgA, msgB].drop ([msgA, msgB].length - 100)).map format_message :=
  (digest_caps_messages false 100 [msgA, msgB] (by decide)).1

/-! ## C4: failure of the external call falls back, counter untouched -/

/-- C4: when the external summarization call times out or raises any other
error, `summarize_all_channels_async` returns exactly the deterministic local
fallback on the same input and leaves the usage counter at its post-rollover
value; the counter moves past the rollover value exactly when the call
returned successfully. -/
theorem summarize_failure_falls_back (mbc : List (Txt × List MessageData))
    (w : Bool) (n : Nat) (today : Int) (api : Txt → ApiResult) (st : ApiState)
    (hne : mbc.all (fun g => g.2.isEmpty) = false) :
    ((api (full_conversation mbc w n) = .timeout ∨
      (∃ e, api (full_conversation mbc w n) = .error e)) →
      (summarize_all_channels_async mbc w n today api st).1 =
        generate_simple_summary mbc ∧
      (summarize_all_channels_async mbc w n today api st).2 =
        rollover today st) ∧
    ((summarize_all_channels_async mbc w n today api st).2.dailyApiCalls =
        (rollover today st).dailyApiCalls + 1 ↔
      ∃ c, api (full_conversation mbc w n) = .ok c) := by
  unfold summarize_all_channels_async
  simp only [hne, Bool.false_eq_true, if_false]
  cases happi : api (full_conversation mbc w n) with
  | ok c =>
      refine ⟨?_, ?_⟩
      · rintro (h | ⟨e, h⟩) <;> simp at h
      · constructor
        · intro _; exact ⟨c, rfl⟩
        · intro _
          by_cases hc : c.isEmpty <;> simp [hc]
  | timeout =>
      refine ⟨fun _ => ⟨rfl, rfl⟩, ?_⟩
      simp
  | error e =>
      refine ⟨fun _ => ⟨rfl, rfl⟩, ?_⟩
      simp

def apiTimeoutW : Txt → ApiResult := fun _ => ApiResult.timeout

/-- Witness for C4: a nonempty input and an always-timing-out call yield the
fallback text and an unchanged counter. -/
theorem summarize_failure_falls_back_witness :
    (summarize_all_channels_async [(lit "general", [msgA])] false 100 0
        apiTimeoutW ⟨0, 0⟩).1 =
      generate_simple_summary [(lit "general", [msgA])] ∧
    (summarize_all_channels_async [(lit "general", [msgA])] false 100 0
        apiTimeoutW ⟨0, 0⟩).2 = rollover 0 ⟨0, 0⟩ :=
  (summarize_failure_falls_back [(lit "general", [msgA])] false 100 0
    apiTimeoutW ⟨0, 0⟩ (by decide)).1 (Or.inl rfl)

/-! ## C8: all-empty input short-circuits without any call -/

/-- On an input whose groups are all empty, the fallback summarizer finds no
keyword line and returns its own sentinel. -/
theorem generate_simple_summary_all_empty
    (mbc : List (Txt × List MessageData))
    (hall : mbc.all (fun g => g.2.isEmpty) = true) :
    generate_simple_summary mbc = lit "特定のトピックは見つかりませんでした。" := by
  unfold generate_simple_summary
  have hnil : mbc.filterMap (fun g => channelSummaryLine g.1 g.2) = [] := by
    rw [List.filterMap_eq_nil_iff]
    intro g hg
    have : g.2 = [] := by
      have := List.all_eq_true.mp hall g hg
      simpa using this
    simp [channelSummaryLine, this, countWords, stableSortDesc]
  simp [hnil]

/-- C8: when every sub-channel group is empty (including the empty mapping),
summarize returns the fixed nothing-to-summarize sentinel, the state is only
the lazy rollover, the result is entirely independent of the external call
oracle (no call observable), and the output is not the fallback summarizer's
output. -/
theorem summarize_empty_short_circuit (mbc : List (Txt × List MessageData))
    (w : Bool) (n : Nat) (today : Int) (api api' : Txt → ApiResult)
    (st : ApiState)
    (hall : mbc.all (fun g => g.2.isEmpty) = true) :
    (summarize_all_channels_async mbc w n today api st).1 =
      lit "要約するメッセージがありません。" ∧
    (summarize_all_channels_async mbc w n today api st).2 =
      rollover today st ∧
    summarize_all_channels_async mbc w n today api st =
      summarize_all_channels_async mbc w n today api' st ∧
    (summarize_all_channels_async mbc w n today api st).1 ≠
      generate_simple_summary mbc := by
  have key : ∀ f : Txt → ApiResult,
      summarize_all_channels_async mbc w n today f st =
        (lit "要約するメッセージがありません。", rollover today st) := by
    intro f
    unfold summarize_all_channels_async
    simp [hall]
  refine ⟨by rw [key], by rw [key], by rw [key, key], ?_⟩
  rw [key, generate_simple_summary_all_empty mbc hall]
  show lit "要約するメッセージがありません。" ≠ lit "特定のトピックは見つかりませんでした。"
  decide

def apiOkW : Txt → ApiResult := fun _ => ApiResult.ok (lit "digest")

/-- Witness for C8 at the empty mapping, with two different call oracles. -/
theorem summarize_empty_short_circuit_witness :
    (summarize_all_channels_async [] false 100 5 apiOkW ⟨3, 5⟩).1 =
      lit "要約するメッセージがありません。" ∧
    summarize_all_channels_async [] false 100 5 apiOkW ⟨3, 5⟩ =
      summarize_all_channels_async [] false 100 5 apiTimeoutW ⟨3, 5⟩ := by
  have h := summarize_empty_short_circuit [] false 100 5 apiOkW apiTimeoutW
    ⟨3, 5⟩ (by decide)
  exact ⟨h.1, h.2.2.1⟩
